import Mathlib

/-!
Shallow embedding of the Google Books ETL pipeline defined in
src/dags/dag.py, together with theorems about its fetch, deduplication
and database-insert operations.

The embedding follows the source function by function:

* `get_google_books_data` (dag.py lines 26-129): the pagination loop is
  `fetchLoop`, per-item field extraction is `processItem` (with the price
  and rating derivations factored out as `derivePrice` and `deriveRating`,
  dag.py lines 78-88), the truncation `books[:num_books]` is `fetchBooks`,
  and the pandas `drop_duplicates(subset="title")` pass is `dedupByTitle`
  (keep-first semantics).
* `insert_book_data_into_postgres` (dag.py lines 162-211): modelled as a
  function from the XCom payload, a failure oracle for the row inserts,
  and the initial table contents to a `LoadResult` recording the outcome,
  the visible table, and the resource events of the run.

JSON values read by the source are modelled with `Option` leaves: `none`
is an absent key.  Numeric JSON fields that the source only ever formats
into strings (the retail price amount and the average rating) are
modelled by their decimal string rendering.  API page requests are
modelled by the sequence of responses the loop would receive, one per
request, where `ApiResponse.failure` stands for any exception raised
during a page fetch (the source catches both `RequestException` and
`Exception` and breaks out of the loop, dag.py lines 106-111).
-/

namespace GoogleBooksEtl

/-- Whitespace characters removed by the Python `str.strip` method. -/
def isPySpace (c : Char) : Bool :=
  c == ' ' || c == '\t' || c == '\n' || c == '\r' || c == '\u000B' || c == '\u000C'

/-- Drop leading and trailing whitespace from a character list. -/
def trimChars (l : List Char) : List Char :=
  ((l.dropWhile isPySpace).reverse.dropWhile isPySpace).reverse

/-- Embedding of Python `str.strip`: drop leading and trailing whitespace. -/
def strip (s : String) : String :=
  ⟨trimChars s.data⟩

/-- The `retailPrice` object of an item, dag.py line 79. -/
structure RetailPrice where
  amount : Option String
  currencyCode : Option String
deriving DecidableEq

/-- The `saleInfo` object of an item, dag.py lines 78-83.  A missing
`saleInfo` key is the value with both fields `none` (the source defaults
it to the empty dict). -/
structure SaleInfo where
  retailPrice : Option RetailPrice
  saleability : Option String
deriving DecidableEq

/-- The `volumeInfo` object of an item, dag.py lines 66-88.  A missing
`authors` key is the empty list, matching the source default `[]`. -/
structure VolumeInfo where
  title : Option String
  authors : List String
  averageRating : Option String
deriving DecidableEq

/-- One element of the `items` array of an API page. -/
structure Item where
  volumeInfo : VolumeInfo
  saleInfo : SaleInfo
deriving DecidableEq

/-- A record built by the fetcher, dag.py lines 91-96; also the shape of
the four columns bound by the insert statement, dag.py lines 183-199. -/
structure Book where
  title : String
  author : String
  price : String
  rating : String
deriving DecidableEq

/-- The JSON body of a successful page response, dag.py lines 57-99: the
`items` array (a missing or empty `items` key is the empty list) and the
`totalItems` count (defaulted to 0 by the source, line 99). -/
structure ApiData where
  items : List Item
  totalItems : Nat
deriving DecidableEq

/-- What one page request produces: a parsed body, or any exception
(transport error, bad status, JSON error, ...), dag.py lines 54-111. -/
inductive ApiResponse where
  | failure
  | page (data : ApiData)
deriving DecidableEq

/-- Price derivation, dag.py lines 78-83: `price_info` is the
`retailPrice` dict defaulted to `{}`; if it is truthy (non-empty) the
price is `f"{amount} {currencyCode}"` with dict-level defaults `N/A` and
the empty string, otherwise the `saleability` value defaulted to
`NOT_FOR_SALE`. -/
def derivePrice (item : Item) : String :=
  let price_info := item.saleInfo.retailPrice.getD { amount := none, currencyCode := none }
  if price_info.amount.isSome || price_info.currencyCode.isSome then
    price_info.amount.getD "N/A" ++ " " ++ price_info.currencyCode.getD ""
  else
    item.saleInfo.saleability.getD "NOT_FOR_SALE"

/-- Rating derivation, dag.py lines 86-88: the `averageRating` value
defaulted to `N/A`; any other value is formatted as `f"{rating}/5.0"`. -/
def deriveRating (vi : VolumeInfo) : String :=
  let rating := vi.averageRating.getD "N/A"
  if rating ≠ "N/A" then rating ++ "/5.0" else rating

/-- Title extraction, dag.py line 69: the `title` value defaulted to the
empty string, then stripped. -/
def extractTitle (item : Item) : String :=
  strip (item.volumeInfo.title.getD "")

/-- Author derivation, dag.py lines 74-75: join the authors list with a
comma, or `Unknown` when the list is absent or empty. -/
def deriveAuthor (vi : VolumeInfo) : String :=
  if vi.authors.isEmpty then "Unknown" else String.intercalate ", " vi.authors

/-- The record appended for one retained item, dag.py lines 91-96. -/
def mkBook (item : Item) : Book :=
  { title := extractTitle item, author := deriveAuthor item.volumeInfo,
    price := derivePrice item, rating := deriveRating item.volumeInfo }

/-- Processing of one item of a page, dag.py lines 65-96, acting on the
pair (seen_titles, books): skip the item when the stripped title is empty
or already seen; otherwise record the title as seen and append the
record. -/
def processItem (sb : List String × List Book) (item : Item) : List String × List Book :=
  if extractTitle item = "" ∨ extractTitle item ∈ sb.1 then sb
  else (extractTitle item :: sb.1, sb.2 ++ [mkBook item])

/-- The `for item in data["items"]` loop, dag.py lines 65-96. -/
def processPage (items : List Item) (sb : List String × List Book) : List String × List Book :=
  items.foldl processItem sb

/-- The pagination `while` loop, dag.py lines 47-111.  The loop runs while
fewer than `num_books` records are collected; each iteration consumes the
next response.  A failure response (or an exhausted response sequence)
breaks out of the loop, as do an empty `items` array and the
total-reached / target-reached check of line 100; otherwise the offset
advances by the number of items on the page and the loop continues. -/
def fetchLoop (num_books : Nat) : List ApiResponse → List Book → List String → Nat → List Book
  | responses, books, seen, start_index =>
    if num_books ≤ books.length then books
    else
      match responses with
      | [] => books
      | ApiResponse.failure :: _ => books
      | ApiResponse.page d :: rest =>
        if d.items.isEmpty then books
        else
          let sb := processPage d.items (seen, books)
          if d.totalItems ≤ start_index + d.items.length ∨ num_books ≤ sb.2.length then sb.2
          else fetchLoop num_books rest sb.2 sb.1 (start_index + d.items.length)

/-- The loop result truncated to the requested count, dag.py line 114. -/
def fetchBooks (num_books : Nat) (responses : List ApiResponse) : List Book :=
  (fetchLoop num_books responses [] [] 0).take num_books

/-- Keep-first deduplication by title with an accumulator of titles
already emitted: the semantics of
`df.drop_duplicates(subset="title")`, dag.py line 125. -/
def dedupAux (seen : List String) : List Book → List Book
  | [] => []
  | b :: rest =>
    if b.title ∈ seen then dedupAux seen rest
    else b :: dedupAux (b.title :: seen) rest

/-- The post-fetch deduplication pass, dag.py lines 123-125. -/
def dedupByTitle (books : List Book) : List Book :=
  dedupAux [] books

/-- The whole fetch task, dag.py lines 26-129: run the pagination loop,
truncate to `num_books`, and push the empty list when nothing was fetched
(lines 117-120) or the deduplicated records otherwise (lines 123-129). -/
def get_google_books_data (num_books : Nat) (responses : List ApiResponse) : List Book :=
  let books := fetchBooks num_books responses
  if books.isEmpty then [] else dedupByTitle books

/-- A record as pulled from XCom by the insert task: a dict whose four
fields are read with `book.get(key, '')`, dag.py lines 194-197. -/
structure XcomBook where
  title : Option String
  author : Option String
  price : Option String
  rating : Option String
deriving DecidableEq

/-- The four parameters bound by one execution of the insert statement,
dag.py lines 191-199: each missing field becomes the empty string. -/
def bindRow (b : XcomBook) : Book :=
  { title := b.title.getD "", author := b.author.getD "",
    price := b.price.getD "", rating := b.rating.getD "" }

/-- Whether the insert task returned normally or re-raised an exception. -/
inductive LoadOutcome where
  | ok
  | raised
deriving DecidableEq

/-- Observable result of one run of the insert task: its outcome, the
rows visible in the `books` table afterwards, and the resource events of
the run (connection acquired, transaction opened by a first row insert,
commit, rollback, cursor and connection closed, warning logged). -/
structure LoadResult where
  outcome : LoadOutcome
  table : List Book
  connAcquired : Bool
  txnOpened : Bool
  committed : Bool
  rolledBack : Bool
  cursorClosed : Bool
  connClosed : Bool
  warned : Bool
deriving DecidableEq

/-- The `for book in book_data` loop of `cursor.execute` calls, dag.py
lines 190-200, under a failure oracle `fails` telling which execute call
(by 0-based position) raises.  Returns the rows executed into the open
transaction before any failure, and whether the loop raised. -/
def execLoop (fails : Nat → Bool) : Nat → List XcomBook → List Book × Bool
  | _, [] => ([], false)
  | i, b :: rest =>
    if fails i then ([], true)
    else
      let r := execLoop fails (i + 1) rest
      (bindRow b :: r.1, r.2)

/-- The insert task, dag.py lines 162-211.  `book_data` is the XCom
payload (`none` when the pull returned nothing).  A falsy payload logs a
warning and returns before any connection is acquired (lines 175-177).
Otherwise a connection and cursor are acquired, each record is inserted
inside one transaction, and the transaction is committed on success
(line 202) or rolled back with the exception re-raised on any insert
failure (lines 205-208); the cursor and connection are closed in the
`finally` block on both paths (lines 209-211).  Rows become visible in
the table only through the commit. -/
def insert_book_data_into_postgres (book_data : Option (List XcomBook))
    (fails : Nat → Bool) (table : List Book) : LoadResult :=
  match book_data with
  | none =>
    { outcome := LoadOutcome.ok, table := table, connAcquired := false,
      txnOpened := false, committed := false, rolledBack := false,
      cursorClosed := false, connClosed := false, warned := true }
  | some [] =>
    { outcome := LoadOutcome.ok, table := table, connAcquired := false,
      txnOpened := false, committed := false, rolledBack := false,
      cursorClosed := false, connClosed := false, warned := true }
  | some (b :: rest) =>
    let r := execLoop fails 0 (b :: rest)
    if r.2 then
      { outcome := LoadOutcome.raised, table := table, connAcquired := true,
        txnOpened := true, committed := false, rolledBack := true,
        cursorClosed := true, connClosed := true, warned := false }
    else
      { outcome := LoadOutcome.ok, table := table ++ r.1, connAcquired := true,
        txnOpened := true, committed := true, rolledBack := false,
        cursorClosed := true, connClosed := true, warned := false }

/-- Written from the words of the deduplication claim: keep a record
exactly when it is the first occurrence of its title, that is, when no
record of the prefix before it carries the same title; kept records are
passed through unchanged, in their original relative order.  `pre` is
the prefix of the input already traversed. -/
def firstOccAux (pre : List Book) : List Book → List Book
  | [] => []
  | b :: rest =>
    if b.title ∈ pre.map Book.title then firstOccAux (pre ++ [b]) rest
    else b :: firstOccAux (pre ++ [b]) rest

/-- The subsequence of first occurrences of each distinct title. -/
def keepFirstOccurrences (books : List Book) : List Book :=
  firstOccAux [] books

/-! ### Lemmas about stripping -/

theorem dropWhile_head_eq_false {α : Type} (p : α → Bool) :
    ∀ (l : List α) (x : α) (xs : List α), l.dropWhile p = x :: xs → p x = false := by
  intro l
  induction l with
  | nil => intro x xs h; simp [List.dropWhile] at h
  | cons a t ih =>
    intro x xs h
    by_cases hp : p a
    · rw [List.dropWhile_cons, if_pos hp] at h
      exact ih x xs h
    · rw [List.dropWhile_cons, if_neg hp] at h
      cases h
      simpa using hp

theorem dropWhile_dropWhile {α : Type} (p : α → Bool) (l : List α) :
    (l.dropWhile p).dropWhile p = l.dropWhile p := by
  cases h : l.dropWhile p with
  | nil => rfl
  | cons x xs =>
    rw [List.dropWhile_cons, if_neg]
    simp [dropWhile_head_eq_false p l x xs h]

theorem dropWhile_prefix_eq_self {α : Type} (p : α → Bool) (l a b : List α)
    (h : l.dropWhile p = a ++ b) : a.dropWhile p = a := by
  cases a with
  | nil => rfl
  | cons x a0 =>
    have hx : p x = false := dropWhile_head_eq_false p l x (a0 ++ b) h
    rw [List.dropWhile_cons, if_neg]
    simp [hx]

theorem reverse_decomp {α : Type} (p : α → Bool) (m : List α) :
    m = (m.reverse.dropWhile p).reverse ++ (m.reverse.takeWhile p).reverse := by
  calc m = m.reverse.reverse := (List.reverse_reverse m).symm
    _ = (m.reverse.takeWhile p ++ m.reverse.dropWhile p).reverse := by
        rw [List.takeWhile_append_dropWhile]
    _ = (m.reverse.dropWhile p).reverse ++ (m.reverse.takeWhile p).reverse :=
        List.reverse_append ..

theorem trimChars_idem (l : List Char) : trimChars (trimChars l) = trimChars l := by
  have h1 : (trimChars l).dropWhile isPySpace = trimChars l :=
    dropWhile_prefix_eq_self isPySpace l (trimChars l) _
      (reverse_decomp isPySpace (l.dropWhile isPySpace))
  have h2 : (trimChars l).reverse = (l.dropWhile isPySpace).reverse.dropWhile isPySpace :=
    List.reverse_reverse _
  show (((trimChars l).dropWhile isPySpace).reverse.dropWhile isPySpace).reverse = trimChars l
  rw [h1, h2, dropWhile_dropWhile]
  rfl

theorem strip_strip (s : String) : strip (strip s) = strip s :=
  congrArg String.mk (trimChars_idem s.data)

/-! ### The invariant of the pagination loop -/

/-- Invariant relating the `seen_titles` set and the `books` list of the
pagination loop: book titles are pairwise distinct, every book title has
been recorded as seen, and every book title is a non-empty stripped
string. -/
def GoodState (seen : List String) (books : List Book) : Prop :=
  (books.map Book.title).Nodup
  ∧ (∀ b ∈ books, b.title ∈ seen)
  ∧ ∀ b ∈ books, strip b.title = b.title ∧ b.title ≠ ""

/-- The part of the invariant that survives once the loop returns. -/
def OutGood (books : List Book) : Prop :=
  (books.map Book.title).Nodup ∧ ∀ b ∈ books, strip b.title = b.title ∧ b.title ≠ ""

theorem GoodState.out {seen : List String} {books : List Book}
    (h : GoodState seen books) : OutGood books :=
  ⟨h.1, h.2.2⟩

theorem mkBook_title (item : Item) : (mkBook item).title = extractTitle item := rfl

theorem processItem_good (item : Item) (sb : List String × List Book)
    (h : GoodState sb.1 sb.2) : GoodState (processItem sb item).1 (processItem sb item).2 := by
  unfold processItem
  split
  · exact h
  · next hc =>
    push_neg at hc
    obtain ⟨ht, hmem⟩ := hc
    obtain ⟨hnd, hseen, hgood⟩ := h
    refine ⟨?_, ?_, ?_⟩
    · rw [List.map_append]
      have hnotin : extractTitle item ∉ sb.2.map Book.title := by
        intro hin
        obtain ⟨b, hb, hbt⟩ := List.mem_map.1 hin
        exact hmem (hbt ▸ hseen b hb)
      simp only [List.map_cons, List.map_nil, mkBook_title]
      simp [List.nodup_append, hnd, hnotin]
    · intro b hb
      rcases List.mem_append.1 hb with h1 | h2
      · exact List.mem_cons_of_mem _ (hseen b h1)
      · rw [List.mem_singleton.1 h2, mkBook_title]
        exact List.mem_cons_self _ _
    · intro b hb
      rcases List.mem_append.1 hb with h1 | h2
      · exact hgood b h1
      · rw [List.mem_singleton.1 h2, mkBook_title]
        exact ⟨strip_strip _, ht⟩

theorem processPage_good (items : List Item) (sb : List String × List Book)
    (h : GoodState sb.1 sb.2) :
    GoodState (processPage items sb).1 (processPage items sb).2 := by
  induction items generalizing sb with
  | nil => exact h
  | cons it rest ih => exact ih (processItem sb it) (processItem_good it sb h)

theorem fetchLoop_good (responses : List ApiResponse) :
    ∀ (n : Nat) (books : List Book) (seen : List String) (si : Nat),
      GoodState seen books → OutGood (fetchLoop n responses books seen si) := by
  induction responses with
  | nil =>
    intro n books seen si h
    show OutGood (if n ≤ books.length then books else books)
    by_cases hg : n ≤ books.length
    · rw [if_pos hg]; exact h.out
    · rw [if_neg hg]; exact h.out
  | cons r rest ih =>
    intro n books seen si h
    cases r with
    | failure =>
      show OutGood (if n ≤ books.length then books else books)
      by_cases hg : n ≤ books.length
      · rw [if_pos hg]; exact h.out
      · rw [if_neg hg]; exact h.out
    | page d =>
      show OutGood (if n ≤ books.length then books else
        if d.items.isEmpty then books else
        if d.totalItems ≤ si + d.items.length ∨ n ≤ (processPage d.items (seen, books)).2.length
        then (processPage d.items (seen, books)).2
        else fetchLoop n rest (processPage d.items (seen, books)).2
          (processPage d.items (seen, books)).1 (si + d.items.length))
      by_cases hg : n ≤ books.length
      · rw [if_pos hg]; exact h.out
      · rw [if_neg hg]
        by_cases he : d.items.isEmpty
        · rw [if_pos he]; exact h.out
        · rw [if_neg he]
          have hsb := processPage_good d.items (seen, books) h
          by_cases hstop : d.totalItems ≤ si + d.items.length ∨
              n ≤ (processPage d.items (seen, books)).2.length
          · rw [if_pos hstop]; exact hsb.out
          · rw [if_neg hstop]; exact ih n _ _ _ hsb

theorem fetchBooks_good (n : Nat) (responses : List ApiResponse) :
    OutGood (fetchBooks n responses) ∧ (fetchBooks n responses).length ≤ n := by
  have h0 : GoodState [] ([] : List Book) := by
    refine ⟨List.nodup_nil, ?_, ?_⟩ <;> intro b hb <;> simp at hb
  have hout := fetchLoop_good responses n [] [] 0 h0
  unfold fetchBooks
  refine ⟨⟨?_, ?_⟩, List.length_take_le ..⟩
  · rw [List.map_take ..]
    exact hout.1.sublist (List.take_sublist ..)
  · intro b hb
    exact hout.2 b ((List.take_sublist ..).subset hb)

/-! ### Lemmas about deduplication -/

theorem dedupAux_sublist : ∀ (l : List Book) (seen : List String),
    List.Sublist (dedupAux seen l) l := by
  intro l
  induction l with
  | nil => intro seen; exact List.Sublist.refl []
  | cons b rest ih =>
    intro seen
    show List.Sublist
      (if b.title ∈ seen then dedupAux seen rest else b :: dedupAux (b.title :: seen) rest)
      (b :: rest)
    by_cases hb : b.title ∈ seen
    · rw [if_pos hb]; exact (ih seen).cons b
    · rw [if_neg hb]; exact (ih (b.title :: seen)).cons₂ b

theorem dedupAux_eq_self : ∀ (l : List Book) (seen : List String),
    (∀ b ∈ l, b.title ∉ seen) → (l.map Book.title).Nodup → dedupAux seen l = l := by
  intro l
  induction l with
  | nil => intro seen _ _; rfl
  | cons b rest ih =>
    intro seen hni hnd
    have hb : b.title ∉ seen := hni b (List.mem_cons_self ..)
    show (if b.title ∈ seen then dedupAux seen rest else b :: dedupAux (b.title :: seen) rest)
      = b :: rest
    rw [if_neg hb]
    rw [List.map_cons] at hnd
    congr 1
    apply ih
    · intro c hc hmem
      rcases List.mem_cons.1 hmem with he | hs
      · exact (List.nodup_cons.1 hnd).1 (he ▸ List.mem_map_of_mem Book.title hc)
      · exact hni c (List.mem_cons_of_mem _ hc) hs
    · exact (List.nodup_cons.1 hnd).2

theorem dedupAux_eq_firstOccAux : ∀ (l : List Book) (seen : List String) (pre : List Book),
    (∀ x : String, x ∈ seen ↔ x ∈ pre.map Book.title) →
    dedupAux seen l = firstOccAux pre l := by
  intro l
  induction l with
  | nil => intro seen pre _; rfl
  | cons b rest ih =>
    intro seen pre hiff
    show (if b.title ∈ seen then dedupAux seen rest else b :: dedupAux (b.title :: seen) rest)
      = (if b.title ∈ pre.map Book.title then firstOccAux (pre ++ [b]) rest
         else b :: firstOccAux (pre ++ [b]) rest)
    by_cases hb : b.title ∈ seen
    · rw [if_pos hb, if_pos ((hiff b.title).1 hb)]
      apply ih
      intro x
      rw [List.map_append]
      constructor
      · intro hx; exact List.mem_append_left _ ((hiff x).1 hx)
      · intro hx
        rcases List.mem_append.1 hx with h1 | h2
        · exact (hiff x).2 h1
        · rw [List.map_cons, List.map_nil] at h2
          rw [List.mem_singleton.1 h2]; exact hb
    · rw [if_neg hb, if_neg (fun hc => hb ((hiff b.title).2 hc))]
      congr 1
      apply ih
      intro x
      rw [List.map_append]
      constructor
      · intro hx
        rcases List.mem_cons.1 hx with h1 | h2
        · apply List.mem_append_right
          rw [List.map_cons, List.map_nil, h1]
          exact List.mem_singleton_self _
        · exact List.mem_append_left _ ((hiff x).1 h2)
      · intro hx
        rcases List.mem_append.1 hx with h1 | h2
        · exact List.mem_cons_of_mem _ ((hiff x).2 h1)
        · rw [List.map_cons, List.map_nil] at h2
          rw [List.mem_singleton.1 h2]
          exact List.mem_cons_self ..

theorem get_google_books_data_eq (n : Nat) (responses : List ApiResponse) :
    get_google_books_data n responses = fetchBooks n responses := by
  show (if (fetchBooks n responses).isEmpty then []
      else dedupByTitle (fetchBooks n responses)) = fetchBooks n responses
  by_cases he : (fetchBooks n responses).isEmpty
  · rw [if_pos he]
    exact (List.isEmpty_iff.1 he).symm
  · rw [if_neg he]
    unfold dedupByTitle
    exact dedupAux_eq_self _ [] (fun b _ => List.not_mem_nil _)
      (fetchBooks_good n responses).1.1

/-! ### The fetch-side claims -/

/-- C1: for every target count and every sequence of page responses, the
fetch task emits at most `n` records, their titles are pairwise distinct,
and each title is non-empty after whitespace stripping. -/
theorem fetch_at_most_unique_nonempty (n : Nat) (responses : List ApiResponse) :
    (get_google_books_data n responses).length ≤ n
    ∧ ((get_google_books_data n responses).map Book.title).Nodup
    ∧ ∀ b ∈ get_google_books_data n responses, strip b.title ≠ "" := by
  rw [get_google_books_data_eq]
  obtain ⟨⟨hnd, hgood⟩, hlen⟩ := fetchBooks_good n responses
  refine ⟨hlen, hnd, fun b hb => ?_⟩
  rw [(hgood b hb).1]
  exact (hgood b hb).2

/-- C3: the deduplication pass returns exactly the subsequence of first
occurrences of each distinct title (`keepFirstOccurrences`, written from
the words of the claim), and the output is a sublist of the input, so
record order is preserved and no field of a retained record changes. -/
theorem dedup_keeps_first_occurrences (books : List Book) :
    dedupByTitle books = keepFirstOccurrences books
    ∧ List.Sublist (dedupByTitle books) books := by
  constructor
  · unfold dedupByTitle keepFirstOccurrences
    apply dedupAux_eq_firstOccAux
    intro x
    simp
  · exact dedupAux_sublist books []

/-- C4: a page fetch that raises (any exception is the `failure`
response) ends the pagination loop at once: from every loop state, the
loop returns exactly the records collected before the failure, and the
whole fetch task emits the empty list when the very first page fetch
fails.  The source catches the exception (dag.py lines 106-111), so the
fetch task itself never raises for transport errors: the embedding of
the loop is a total function. -/
theorem fetch_failure_returns_collected (n : Nat) (books : List Book) (seen : List String)
    (si : Nat) (rest : List ApiResponse) :
    fetchLoop n (ApiResponse.failure :: rest) books seen si = books
    ∧ get_google_books_data n (ApiResponse.failure :: rest) = [] := by
  have h2 : fetchLoop n (ApiResponse.failure :: rest) [] [] 0 = [] := by
    show (if n ≤ ([] : List Book).length then ([] : List Book) else []) = []
    split <;> rfl
  have h3 : fetchBooks n (ApiResponse.failure :: rest) = [] := by
    unfold fetchBooks
    rw [h2]
    exact List.take_nil
  constructor
  · show (if n ≤ books.length then books else books) = books
    split <;> rfl
  · rw [get_google_books_data_eq, h3]

/-- The first item of the C8 scenario page: title `A`, one author. -/
def itemA1 : Item :=
  { volumeInfo := { title := some "A", authors := ["Jane Doe"], averageRating := none },
    saleInfo := { retailPrice := none, saleability := none } }

/-- The second item of the C8 scenario page: duplicate title `A`, no
authors. -/
def itemA2 : Item :=
  { volumeInfo := { title := some "A", authors := [], averageRating := none },
    saleInfo := { retailPrice := none, saleability := none } }

/-- C8: with `totalItems = 2` and one page of two items both titled `A`
(authors only on the first), fetching with target 10 yields exactly one
record carrying the first item's author string; whatever responses might
follow the first page are never consumed, because the cumulative offset
plus the items on the page reaches the reported total, so the loop stops
after the first page. -/
theorem fetch_scenario_duplicate_page (rest : List ApiResponse) :
    fetchLoop 10 (ApiResponse.page { items := [itemA1, itemA2], totalItems := 2 } :: rest) [] [] 0
      = [{ title := "A", author := "Jane Doe", price := "NOT_FOR_SALE", rating := "N/A" }]
    ∧ get_google_books_data 10
        (ApiResponse.page { items := [itemA1, itemA2], totalItems := 2 } :: rest)
      = [{ title := "A", author := "Jane Doe", price := "NOT_FOR_SALE", rating := "N/A" }] :=
  ⟨rfl, rfl⟩

/-- C10: the pagination loop already deduplicates through `seen_titles`,
so the post-fetch `drop_duplicates` pass is the identity on the fetched
list: fetch followed by the dedup pass equals fetch alone, for every
sequence of page responses. -/
theorem fetch_then_dedup_eq_fetch (n : Nat) (responses : List ApiResponse) :
    dedupByTitle (fetchBooks n responses) = fetchBooks n responses
    ∧ get_google_books_data n responses = fetchBooks n responses := by
  constructor
  · unfold dedupByTitle
    exact dedupAux_eq_self _ [] (fun b _ => List.not_mem_nil _)
      (fetchBooks_good n responses).1.1
  · exact get_google_books_data_eq n responses

/-! ### The price and rating claims -/

/-- Written from the words of the price claim: the formatted pair exactly
when a retail price object with both amount and currency exists,
otherwise the sale-availability status defaulted to `NOT_FOR_SALE`. -/
def claimedPrice (item : Item) : String :=
  match item.saleInfo.retailPrice with
  | some rp =>
    match rp.amount, rp.currencyCode with
    | some a, some c => a ++ " " ++ c
    | _, _ => item.saleInfo.saleability.getD "NOT_FOR_SALE"
  | none => item.saleInfo.saleability.getD "NOT_FOR_SALE"

/-- The amended price rule: the formatted pair is produced whenever the
retail price object is present and non-empty, with amount defaulting to
`N/A` and currency to the empty string when missing; the fallback to the
sale-availability status (defaulted to `NOT_FOR_SALE`) applies only when
the retail price object is absent or empty. -/
def amendedPrice (item : Item) : String :=
  match item.saleInfo.retailPrice with
  | some rp =>
    if rp.amount.isSome || rp.currencyCode.isSome then
      rp.amount.getD "N/A" ++ " " ++ rp.currencyCode.getD ""
    else item.saleInfo.saleability.getD "NOT_FOR_SALE"
  | none => item.saleInfo.saleability.getD "NOT_FOR_SALE"

/-- An item whose retail price object has an amount but no currency code,
while its saleability is `FOR_SALE`. -/
def cexPriceItem : Item :=
  { volumeInfo := { title := some "T", authors := [], averageRating := none },
    saleInfo := { retailPrice := some { amount := some "5.99", currencyCode := none },
                  saleability := some "FOR_SALE" } }

/-- C6 counterexample: on an item whose retail price object carries an
amount but no currency code, the code formats the pair anyway (yielding
`5.99 ` with a trailing space), while the claim requires the fallback to
the saleability string `FOR_SALE`; the price claim is false as stated. -/
theorem price_claim_counterexample :
    (mkBook cexPriceItem).price = "5.99 "
    ∧ claimedPrice cexPriceItem = "FOR_SALE"
    ∧ (mkBook cexPriceItem).price ≠ claimedPrice cexPriceItem := by decide

/-- C6 amended: the derived price field follows `amendedPrice` — the
formatted `amount currencyCode` pair (with per-field defaults `N/A` and
the empty string) whenever the retail price object is present and
non-empty, and the sale-availability fallback otherwise; in particular
an item with no retail price object and saleability `FOR_SALE` yields
exactly `FOR_SALE`. -/
theorem price_derivation_amended (item : Item) :
    (mkBook item).price = amendedPrice item
    ∧ (item.saleInfo.retailPrice = none →
        item.saleInfo.saleability = some "FOR_SALE" → (mkBook item).price = "FOR_SALE") := by
  constructor
  · show derivePrice item = amendedPrice item
    cases hrp : item.saleInfo.retailPrice with
    | none => simp [derivePrice, amendedPrice, hrp]
    | some rp => simp [derivePrice, amendedPrice, hrp]
  · intro h1 h2
    show derivePrice item = "FOR_SALE"
    simp [derivePrice, h1, h2]

/-- An item with no retail price object and saleability `FOR_SALE`. -/
def saleOnlyItem : Item :=
  { volumeInfo := { title := some "S", authors := [], averageRating := none },
    saleInfo := { retailPrice := none, saleability := some "FOR_SALE" } }

/-- Witness for the amended price claim at a concrete item. -/
theorem price_derivation_amended_witness :
    saleOnlyItem.saleInfo.retailPrice = none
    ∧ saleOnlyItem.saleInfo.saleability = some "FOR_SALE"
    ∧ (mkBook saleOnlyItem).price = "FOR_SALE" :=
  ⟨rfl, rfl, (price_derivation_amended saleOnlyItem).2 rfl rfl⟩

/-- C7: the derived rating field is `N/A` when the average rating is
absent, and `<rating>/5.0` when it is present.  The `averageRating`
field models the decimal rendering of the numeric JSON value, which is
never the literal string `N/A`; that is the `r ≠ "N/A"` hypothesis. -/
theorem rating_derivation (item : Item) :
    (item.volumeInfo.averageRating = none → (mkBook item).rating = "N/A")
    ∧ ∀ r : String, item.volumeInfo.averageRating = some r → r ≠ "N/A" →
        (mkBook item).rating = r ++ "/5.0" := by
  constructor
  · intro h
    show deriveRating item.volumeInfo = "N/A"
    simp [deriveRating, h]
  · intro r h hr
    show deriveRating item.volumeInfo = r ++ "/5.0"
    simp [deriveRating, h, hr]

/-- An item with average rating 4.5. -/
def ratedItem : Item :=
  { volumeInfo := { title := some "R", authors := [], averageRating := some "4.5" },
    saleInfo := { retailPrice := none, saleability := none } }

/-- An item with no average rating. -/
def unratedItem : Item :=
  { volumeInfo := { title := some "U", authors := [], averageRating := none },
    saleInfo := { retailPrice := none, saleability := none } }

/-- Witness for the rating claim at two concrete items. -/
theorem rating_derivation_witness :
    (mkBook ratedItem).rating = "4.5/5.0" ∧ (mkBook unratedItem).rating = "N/A" :=
  ⟨(rating_derivation ratedItem).2 "4.5" rfl (by decide),
   (rating_derivation unratedItem).1 rfl⟩

/-! ### The loader claims -/

theorem execLoop_raised (fails : Nat → Bool) :
    ∀ (l : List XcomBook) (i : Nat),
      (execLoop fails i l).2 = true ↔ ∃ j, j < l.length ∧ fails (i + j) = true := by
  intro l
  induction l with
  | nil =>
    intro i
    simp [execLoop]
  | cons b rest ih =>
    intro i
    show (if fails i then (([] : List Book), true)
        else (bindRow b :: (execLoop fails (i + 1) rest).1, (execLoop fails (i + 1) rest).2)).2
        = true ↔ _
    by_cases hf : fails i
    · rw [if_pos hf]
      simp only [List.length_cons, true_iff]
      exact ⟨0, Nat.succ_pos _, by simpa using hf⟩
    · rw [if_neg hf]
      show (execLoop fails (i + 1) rest).2 = true ↔ _
      rw [ih (i + 1)]
      constructor
      · rintro ⟨j, hj, hfj⟩
        refine ⟨j + 1, by simpa using Nat.succ_lt_succ hj, ?_⟩
        rwa [show i + (j + 1) = i + 1 + j by omega]
      · rintro ⟨j, hj, hfj⟩
        cases j with
        | zero =>
          rw [Nat.add_zero] at hfj
          exact absurd hfj (by simpa using hf)
        | succ j =>
          refine ⟨j, by simpa using Nat.lt_of_succ_lt_succ hj, ?_⟩
          rwa [show i + 1 + j = i + (j + 1) by omega]

/-- C2: for a non-empty record sequence, the insert task raises exactly
when some row insert fails (the first failing `cursor.execute` raises),
and whenever it raises the transaction is rolled back, so the visible
table is unchanged: zero rows of the batch survive, and the exception
propagates to the caller. -/
theorem insert_rollback_atomic (books : List XcomBook) (fails : Nat → Bool)
    (table : List Book) (hne : books ≠ []) :
    ((insert_book_data_into_postgres (some books) fails table).outcome = LoadOutcome.raised
      ↔ ∃ k, k < books.length ∧ fails k = true)
    ∧ ((insert_book_data_into_postgres (some books) fails table).outcome = LoadOutcome.raised →
        (insert_book_data_into_postgres (some books) fails table).table = table
        ∧ (insert_book_data_into_postgres (some books) fails table).rolledBack = true) := by
  cases books with
  | nil => exact absurd rfl hne
  | cons b rest =>
    have hiff := execLoop_raised fails (b :: rest) 0
    simp only [Nat.zero_add] at hiff
    by_cases hr : (execLoop fails 0 (b :: rest)).2
    · have hres : insert_book_data_into_postgres (some (b :: rest)) fails table =
          { outcome := LoadOutcome.raised, table := table, connAcquired := true,
            txnOpened := true, committed := false, rolledBack := true,
            cursorClosed := true, connClosed := true, warned := false } := by
        show (if (execLoop fails 0 (b :: rest)).2 then _ else _) = _
        rw [if_pos hr]
      rw [hres]
      exact ⟨⟨fun _ => hiff.1 hr, fun _ => rfl⟩, fun _ => ⟨rfl, rfl⟩⟩
    · have hres : insert_book_data_into_postgres (some (b :: rest)) fails table =
          { outcome := LoadOutcome.ok, table := table ++ (execLoop fails 0 (b :: rest)).1,
            connAcquired := true, txnOpened := true, committed := true,
            rolledBack := false, cursorClosed := true, connClosed := true,
            warned := false } := by
        show (if (execLoop fails 0 (b :: rest)).2 then _ else _) = _
        rw [if_neg hr]
      rw [hres]
      constructor
      · constructor
        · intro hcontra
          exact absurd hcontra (by simp)
        · intro hex
          exact absurd (hiff.2 hex) hr
      · intro hcontra
        exact absurd hcontra (by simp)

/-- Witness for the insert atomicity claim: a one-record batch whose
first insert fails. -/
theorem insert_rollback_atomic_witness :
    ([({ title := some "t", author := none, price := none,
         rating := none } : XcomBook)] ≠ [])
    ∧ (((insert_book_data_into_postgres
          (some [{ title := some "t", author := none, price := none, rating := none }])
          (fun k => decide (k = 0)) []).outcome = LoadOutcome.raised
        ↔ ∃ k, k < 1 ∧ decide (k = 0) = true)
      ∧ ((insert_book_data_into_postgres
            (some [{ title := some "t", author := none, price := none, rating := none }])
            (fun k => decide (k = 0)) []).outcome = LoadOutcome.raised →
          (insert_book_data_into_postgres
            (some [{ title := some "t", author := none, price := none, rating := none }])
            (fun k => decide (k = 0)) []).table = []
          ∧ (insert_book_data_into_postgres
              (some [{ title := some "t", author := none, price := none, rating := none }])
              (fun k => decide (k = 0)) []).rolledBack = true)) :=
  ⟨by decide,
   insert_rollback_atomic [{ title := some "t", author := none, price := none, rating := none }]
     (fun k => decide (k = 0)) [] (by decide)⟩

/-- C5: an empty or absent record sequence makes the insert task log a
warning and return normally: no connection is acquired, no transaction
is opened, nothing is committed or rolled back, and the table is
untouched. -/
theorem insert_empty_noop (fails : Nat → Bool) (table : List Book) :
    insert_book_data_into_postgres none fails table =
      { outcome := LoadOutcome.ok, table := table, connAcquired := false,
        txnOpened := false, committed := false, rolledBack := false,
        cursorClosed := false, connClosed := false, warned := true }
    ∧ insert_book_data_into_postgres (some []) fails table =
      { outcome := LoadOutcome.ok, table := table, connAcquired := false,
        txnOpened := false, committed := false, rolledBack := false,
        cursorClosed := false, connClosed := false, warned := true } :=
  ⟨rfl, rfl⟩

/-- C9: on every run of the insert task that acquires a connection, both
the cursor and the connection are closed by the time the task returns or
the exception propagates. -/
theorem insert_resources_closed (book_data : Option (List XcomBook)) (fails : Nat → Bool)
    (table : List Book)
    (h : (insert_book_data_into_postgres book_data fails table).connAcquired = true) :
    (insert_book_data_into_postgres book_data fails table).cursorClosed = true
    ∧ (insert_book_data_into_postgres book_data fails table).connClosed = true := by
  match book_data with
  | none => exact absurd h (by simp [insert_book_data_into_postgres])
  | some [] => exact absurd h (by simp [insert_book_data_into_postgres])
  | some (b :: rest) =>
    show ((if (execLoop fails 0 (b :: rest)).2 then _ else _) : LoadResult).cursorClosed = true
      ∧ ((if (execLoop fails 0 (b :: rest)).2 then _ else _) : LoadResult).connClosed = true
    by_cases hr : (execLoop fails 0 (b :: rest)).2
    · rw [if_pos hr]
      exact ⟨rfl, rfl⟩
    · rw [if_neg hr]
      exact ⟨rfl, rfl⟩

/-- Witness for the resource-release claim at a concrete run. -/
theorem insert_resources_closed_witness :
    ((insert_book_data_into_postgres
        (some [{ title := some "t", author := none, price := none, rating := none }])
        (fun _ => false) []).connAcquired = true)
    ∧ ((insert_book_data_into_postgres
          (some [{ title := some "t", author := none, price := none, rating := none }])
          (fun _ => false) []).cursorClosed = true
      ∧ (insert_book_data_into_postgres
          (some [{ title := some "t", author := none, price := none, rating := none }])
          (fun _ => false) []).connClosed = true) :=
  ⟨by decide,
   insert_resources_closed
     (some [{ title := some "t", author := none, price := none, rating := none }])
     (fun _ => false) [] (by decide)⟩

end GoogleBooksEtl
